import Mathlib

set_option maxRecDepth 100000

/-!
Verification of the `pkm-rs` Pokémon-record decoding core (generation 6, `Pk6`).

The repository sources available are `src/pkm/pk6.rs` and `src/pkm/mod.rs`.
`pk6.rs` fixes the record geometry (`STORED_SIZE = 232`, `BLOCK_SIZE = 56`),
the constructor `Pk6::new` (seed = little-endian u32 at bytes 0..4, then
`poke_crypto::decrypt`), the byte offsets of every primitive accessor, and a
complete encrypted/decrypted test fixture.  The modules `poke_crypto.rs`,
`pkx.rs` and `types.rs` are declared in `mod.rs` but their code is not
available; those parts are modelled from the specification and pinned against
the repository's own test fixture where the spec leaves constants open.

Byte buffers `[u8; 232]` are embedded as functions `Nat → Nat` giving the byte
at each index; only indices below 232 are meaningful.  A `List Nat` view with
checked (`Option`) reads is used for the bounds-safety claims.
-/

/-- A fixed-size byte buffer `[u8; N]`, embedded as the function returning the
byte at index `i`.  Indices at or above the record size are irrelevant. -/
abbrev Buffer := Nat → Nat

/-- `Pk6::STORED_SIZE`: total size of a generation-6 stored record. -/
def Pk6.STORED_SIZE : Nat := 232

/-- `Pk6::BLOCK_SIZE`: size of each of the four shuffled body blocks. -/
def Pk6.BLOCK_SIZE : Nat := 56

/-- Modelled from the spec: `poke_crypto.rs` is not under `src/`.  The
keystream generator is a linear congruential recurrence
`state' = state * A + C` with 32-bit wraparound (§4.1).  The multiplier
`0x41C64E6D` and increment `0x6073` are the generation's constants, pinned by
the repository's `should_decrypt` fixture. -/
def poke_crypto.lcgNext (state : Nat) : Nat :=
  (state * 0x41C64E6D + 0x6073) % 2 ^ 32

/-- Modelled from the spec: the generator state after `n` advances from `seed`
(the caller drives the iteration count, §4.1). -/
def poke_crypto.lcgState (seed : Nat) : Nat → Nat
  | 0 => seed
  | n + 1 => poke_crypto.lcgNext (poke_crypto.lcgState seed n)

/-- Modelled from the spec: the `n`-th 16-bit keystream output word (0-based)
is the high 16 bits of the state after `n + 1` advances from the seed. -/
def poke_crypto.keyWord (seed n : Nat) : Nat :=
  poke_crypto.lcgState seed (n + 1) >>> 16

/-- Modelled from the spec: byte `j` of the keystream laid over the body, the
16-bit words being applied little-endian (low byte first). -/
def poke_crypto.keyByte (seed j : Nat) : Nat :=
  if j % 2 = 0 then poke_crypto.keyWord seed (j / 2) % 256
  else poke_crypto.keyWord seed (j / 2) / 256

/-- Modelled from the spec: the XOR-keystream pass of the decryption engine
(§4.2 step 2).  The 8-byte header (encryption constant and checksum region,
bytes 0..8) is copied unchanged; each body byte is XORed with the keystream. -/
def poke_crypto.crypt (data : Buffer) (seed : Nat) : Buffer := fun i =>
  if 8 ≤ i ∧ i < 232 then data i ^^^ poke_crypto.keyByte seed (i - 8) else data i

/-- Modelled from the spec: the fixed table of the 24 orderings of the four
body blocks (§4.2 step 3).  Row `idx`, column `j` names the source block that
ends up at output position `j`.  The enumeration order is pinned by the
repository's `should_decrypt` fixture (its seed selects row 18, `[1,2,3,0]`). -/
def poke_crypto.SHUFFLE_TABLE : List (List Nat) :=
  [[0,1,2,3],[0,1,3,2],[0,2,1,3],[0,3,1,2],[0,2,3,1],[0,3,2,1],
   [1,0,2,3],[1,0,3,2],[2,0,1,3],[3,0,1,2],[2,0,3,1],[3,0,2,1],
   [1,2,0,3],[1,3,0,2],[2,1,0,3],[3,1,0,2],[2,3,0,1],[3,2,0,1],
   [1,2,3,0],[1,3,2,0],[2,1,3,0],[3,1,2,0],[2,3,1,0],[3,2,1,0]]

/-- Entry `j` of permutation row `idx` of the shuffle table. -/
def poke_crypto.shufGet (idx j : Nat) : Nat :=
  (poke_crypto.SHUFFLE_TABLE.getD idx []).getD j 0

/-- Modelled from the spec: the inverse of each row of `SHUFFLE_TABLE`
(row `idx` here is the inverse permutation of row `idx` there), used by the
encryption direction (§8: the permutation step is inverted by its own inverse
permutation). -/
def poke_crypto.INV_SHUFFLE_TABLE : List (List Nat) :=
  [[0,1,2,3],[0,1,3,2],[0,2,1,3],[0,2,3,1],[0,3,1,2],[0,3,2,1],
   [1,0,2,3],[1,0,3,2],[1,2,0,3],[1,2,3,0],[1,3,0,2],[1,3,2,0],
   [2,0,1,3],[2,0,3,1],[2,1,0,3],[2,1,3,0],[2,3,0,1],[2,3,1,0],
   [3,0,1,2],[3,0,2,1],[3,1,0,2],[3,1,2,0],[3,2,0,1],[3,2,1,0]]

/-- Entry `j` of permutation row `idx` of the inverse shuffle table. -/
def poke_crypto.invShufGet (idx j : Nat) : Nat :=
  (poke_crypto.INV_SHUFFLE_TABLE.getD idx []).getD j 0

/-- Modelled from the spec: the block-permutation index is a shift-and-mask of
the seed reduced modulo the 24 orderings of the four blocks (§4.2 step 3). -/
def poke_crypto.shuffleIndex (seed : Nat) : Nat :=
  ((seed >>> 13) &&& 31) % 24

/-- Modelled from the spec: reorder the four 56-byte body blocks (bytes
8..232) according to permutation row `idx`: output block `j` is source block
`shufGet idx j`.  The header passes through. -/
def poke_crypto.shuffle (data : Buffer) (idx : Nat) : Buffer := fun i =>
  if 8 ≤ i ∧ i < 232 then
    data (8 + 56 * poke_crypto.shufGet idx ((i - 8) / 56) + (i - 8) % 56)
  else data i

/-- Modelled from the spec: reorder the body blocks by the inverse of row
`idx`; the encryption-direction counterpart of `shuffle`. -/
def poke_crypto.unshuffle (data : Buffer) (idx : Nat) : Buffer := fun i =>
  if 8 ≤ i ∧ i < 232 then
    data (8 + 56 * poke_crypto.invShufGet idx ((i - 8) / 56) + (i - 8) % 56)
  else data i

/-- Modelled from the spec: `poke_crypto::decrypt::<232, 56>` — XOR the
keystream over the body, then restore the blocks to natural order (§4.2). -/
def poke_crypto.decrypt (data : Buffer) (seed : Nat) : Buffer :=
  poke_crypto.shuffle (poke_crypto.crypt data seed) (poke_crypto.shuffleIndex seed)

/-- Modelled from the spec: the encryption direction — shuffle the body blocks
by the inverse permutation, then apply the same XOR keystream (§8). -/
def poke_crypto.encrypt (data : Buffer) (seed : Nat) : Buffer :=
  poke_crypto.crypt (poke_crypto.unshuffle data (poke_crypto.shuffleIndex seed)) seed

/-- Little-endian unsigned read of one byte (trivial width-1 case of the
primitive accessor contract). -/
def readU8 (b : Buffer) (off : Nat) : Nat := b off

/-- Little-endian unsigned 16-bit read at `off` (primitive accessor
contract, §4.3). -/
def readU16le (b : Buffer) (off : Nat) : Nat :=
  b off + 256 * b (off + 1)

/-- Little-endian unsigned 32-bit read at `off` (primitive accessor
contract, §4.3). -/
def readU32le (b : Buffer) (off : Nat) : Nat :=
  b off + 256 * b (off + 1) + 65536 * b (off + 2) + 16777216 * b (off + 3)

/-- An ordered tuple of six per-stat small unsigned integers (`types::Stats`;
`types.rs` is not under `src/`, field order as constructed by `Pk6::evs`).
Rust's field `def` is rendered `dfn`. -/
structure Stats where
  hp : Nat
  atk : Nat
  dfn : Nat
  spa : Nat
  spd : Nat
  spe : Nat
deriving DecidableEq

/-- Modelled from the spec: the fixed 16-entry hidden-power type enumeration
(`types::HiddenPower`; `types.rs` is not under `src/`).  The order is the
generation's damage-type table from Fighting to Dark; the fixture pins index
15 to Dark. -/
inductive HiddenPower where
  | Fighting | Flying | Poison | Ground | Rock | Bug | Ghost | Steel
  | Fire | Water | Grass | Electric | Psychic | Ice | Dragon | Dark
deriving DecidableEq

/-- The 16-entry hidden-power table in index order 0..15. -/
def HIDDEN_POWER_TABLE : List HiddenPower :=
  [.Fighting, .Flying, .Poison, .Ground, .Rock, .Bug, .Ghost, .Steel,
   .Fire, .Water, .Grass, .Electric, .Psychic, .Ice, .Dragon, .Dark]

/-- Modelled from the spec: `Species::Ditto` as a numeric id (`types.rs` is
not under `src/`); pinned by `should_read_species` together with the decrypted
fixture byte at the species offset. -/
def Species.Ditto : Nat := 132

/-- Modelled from the spec: `Nature::Adamant` as a numeric id; pinned by
`should_read_nature` and the decrypted fixture byte at the nature offset. -/
def Nature.Adamant : Nat := 3

/-- Modelled from the spec: `Ability::Imposter` as a numeric id; pinned by
`should_read_ability` and the decrypted fixture byte at the ability offset. -/
def Ability.Imposter : Nat := 150

/-- Modelled from the spec: `AbilityNumber::Hidden` as a numeric id; pinned by
`should_read_ability_number` and the fixture byte at the ability-slot
offset. -/
def AbilityNumber.Hidden : Nat := 4

/-- The decoded generation-6 entity: a wrapper over the canonical (decrypted,
unshuffled) buffer, as in `struct Pk6 { data: Pk6Bytes }`. -/
structure Pk6 where
  data : Buffer

/-- `Pk6::new`: read the seed as the little-endian u32 at bytes 0..4 of the
raw record and decrypt. -/
def Pk6.new (data : Buffer) : Pk6 :=
  ⟨poke_crypto.decrypt data (readU32le data 0)⟩

/-- `encryption_constant`: little-endian u32 at offset 0x00. -/
def Pk6.encryption_constant (p : Pk6) : Nat := readU32le p.data 0x00

/-- `species`: little-endian u16 at offset 0x08 (numeric id). -/
def Pk6.species (p : Pk6) : Nat := readU16le p.data 0x08

/-- `tid`: little-endian u16 at offset 0x0C. -/
def Pk6.tid (p : Pk6) : Nat := readU16le p.data 0x0C

/-- `sid`: little-endian u16 at offset 0x0E. -/
def Pk6.sid (p : Pk6) : Nat := readU16le p.data 0x0E

/-- `ability`: byte at offset 0x14 (numeric id). -/
def Pk6.ability (p : Pk6) : Nat := readU8 p.data 0x14

/-- `ability_number`: byte at offset 0x15 (numeric id). -/
def Pk6.ability_number (p : Pk6) : Nat := readU8 p.data 0x15

/-- `pid`: little-endian u32 at offset 0x18 (the personality value). -/
def Pk6.pid (p : Pk6) : Nat := readU32le p.data 0x18

/-- `nature`: byte at offset 0x1C (numeric id). -/
def Pk6.nature (p : Pk6) : Nat := readU8 p.data 0x1C

/-- `gender`: bits 1..2 of the byte at offset 0x1D. -/
def Pk6.gender (p : Pk6) : Nat := (readU8 p.data 0x1D >>> 1) &&& 3

/-- `evs`: the six effort-value bytes at offsets 0x1E..0x23, in stat order. -/
def Pk6.evs (p : Pk6) : Stats :=
  { hp := readU8 p.data 0x1E
    atk := readU8 p.data 0x1F
    dfn := readU8 p.data 0x20
    spa := readU8 p.data 0x21
    spd := readU8 p.data 0x22
    spe := readU8 p.data 0x23 }

/-- `iv32`: the packed individual-value word, little-endian u32 at 0x74. -/
def Pk6.iv32 (p : Pk6) : Nat := readU32le p.data 0x74

/-- `ht_friendship`: `default_read::<u32>`, a little-endian u32 read at
offset 0xA2 (bytes 0xA2..0xA5). -/
def Pk6.ht_friendship (p : Pk6) : Nat := readU32le p.data 0xA2

/-- `ot_friendship`: `default_read::<u32>`, a little-endian u32 read at
offset 0xCA (bytes 0xCA..0xCD). -/
def Pk6.ot_friendship (p : Pk6) : Nat := readU32le p.data 0xCA

/-- `language`: byte at offset 0xE3 (the highest accessor offset). -/
def Pk6.language (p : Pk6) : Nat := readU8 p.data 0xE3

/-- Modelled from the spec: the trainer shiny value
`tsv = (trainer_id XOR secret_id) >> 4` (§4.4; `pkx.rs` is not under
`src/`). -/
def tsv (t s : Nat) : Nat := (t ^^^ s) >>> 4

/-- Modelled from the spec: the entity shiny value
`psv = ((pid >> 16) XOR (pid & 0xFFFF)) >> 4` (§4.4). -/
def psv (v : Nat) : Nat := ((v >>> 16) ^^^ (v &&& 0xFFFF)) >>> 4

/-- Modelled from the spec: shiny determination, true iff `tsv == psv`
(§4.4). -/
def shiny (t s v : Nat) : Bool := tsv t s == psv v

/-- `Pk6`'s trainer shiny value (`pkx.rs` default method, modelled from the
spec): `(tid XOR sid) >> 4`. -/
def Pk6.tsv (p : Pk6) : Nat := (p.tid ^^^ p.sid) >>> 4

/-- `Pk6`'s entity shiny value (`pkx.rs` default method, modelled from the
spec): `((pid >> 16) XOR (pid & 0xFFFF)) >> 4`. -/
def Pk6.psv (p : Pk6) : Nat := ((p.pid >>> 16) ^^^ (p.pid &&& 0xFFFF)) >>> 4

/-- `Pk6`'s shiny determination (`pkx.rs` default method, modelled from the
spec): true iff the two shiny values agree. -/
def Pk6.is_shiny (p : Pk6) : Bool := p.tsv == p.psv

/-- Modelled from the spec: unpack the six 5-bit individual-value fields from
the packed word, low bit first, in stat order hp, atk, def, spa, spd, spe
(§4.4); the remaining high bits are flags. -/
def ivs_of (w : Nat) : Stats :=
  { hp := w &&& 31
    atk := (w >>> 5) &&& 31
    dfn := (w >>> 10) &&& 31
    spa := (w >>> 15) &&& 31
    spd := (w >>> 20) &&& 31
    spe := (w >>> 25) &&& 31 }

/-- `Pk6`'s unpacked individual values. -/
def Pk6.ivs (p : Pk6) : Stats := ivs_of p.iv32

/-- Modelled from the spec: the hidden-power bit sum
`S = (hp&1) + 2*(atk&1) + 4*(def&1) + 8*(spe&1) + 16*(spa&1) + 32*(spd&1)`
(§4.4). -/
def hiddenPowerSum (s : Stats) : Nat :=
  (s.hp &&& 1) + 2 * (s.atk &&& 1) + 4 * (s.dfn &&& 1) +
    8 * (s.spe &&& 1) + 16 * (s.spa &&& 1) + 32 * (s.spd &&& 1)

/-- Modelled from the spec: the hidden-power type is the table entry at index
`floor(S * 15 / 63)` (§4.4). -/
def hidden_power_of (s : Stats) : HiddenPower :=
  HIDDEN_POWER_TABLE.getD (hiddenPowerSum s * 15 / 63) HiddenPower.Fighting

/-- `Pk6`'s hidden-power type, from its unpacked individual values. -/
def Pk6.hidden_power (p : Pk6) : HiddenPower := hidden_power_of p.ivs

/-- The encrypted 232-byte test fixture `TEST_EKX` from `pk6.rs`. -/
def TEST_EKX : List Nat :=
  [0x80, 0x5c, 0x86, 0x02, 0x00, 0x00, 0xd6, 0x41, 0x20, 0x0e, 0x56, 0x4f, 0xaa, 0xf1, 0xf4,
   0x2f, 0xa5, 0x9e, 0xcc, 0xfe, 0x8b, 0xf2, 0x32, 0x20, 0x51, 0xd1, 0x99, 0xdd, 0x42, 0xd2,
   0x55, 0xe5, 0x05, 0x1f, 0x85, 0x2a, 0x62, 0xe2, 0x2a, 0x14, 0x5a, 0x21, 0x96, 0xdb, 0x76,
   0x2e, 0xd6, 0x4e, 0x72, 0xa0, 0x72, 0x08, 0xa0, 0x2b, 0x59, 0x35, 0xf9, 0x56, 0xba, 0xc6,
   0x92, 0x55, 0x0c, 0x01, 0xf9, 0x2b, 0xdb, 0x58, 0xbd, 0x84, 0x5a, 0xc9, 0x94, 0x77, 0x96,
   0x72, 0x1d, 0x5b, 0x13, 0xd1, 0x8a, 0x7b, 0x7e, 0x07, 0x93, 0xec, 0xe2, 0x81, 0x08, 0x4b,
   0x13, 0xfa, 0xda, 0x5f, 0x4a, 0x6c, 0x0a, 0xcb, 0x50, 0x90, 0xb9, 0x48, 0x37, 0x99, 0x68,
   0x9b, 0x51, 0xe9, 0xe7, 0x1b, 0xfe, 0x80, 0xcb, 0x56, 0xad, 0x23, 0xb8, 0x56, 0x50, 0x60,
   0x47, 0xf4, 0x59, 0x27, 0xee, 0x49, 0xb3, 0x76, 0xcb, 0xa7, 0xef, 0x77, 0xe7, 0x59, 0xdb,
   0xd8, 0xe9, 0x1e, 0x4e, 0xe9, 0xf5, 0xa9, 0xf3, 0xb7, 0x77, 0x93, 0x7c, 0x45, 0x86, 0x5e,
   0xef, 0x41, 0x3f, 0x0d, 0xb1, 0xb6, 0x66, 0xf2, 0xd8, 0x86, 0x98, 0x64, 0xf2, 0xf2, 0x7f,
   0x4b, 0x86, 0xf6, 0x46, 0xda, 0x44, 0x7f, 0xec, 0x75, 0x34, 0xd4, 0xcd, 0x58, 0x4b, 0x7a,
   0x33, 0x21, 0x3e, 0xdf, 0x68, 0xb1, 0xe9, 0xbd, 0x55, 0x11, 0x91, 0x28, 0x53, 0x6e, 0xfb,
   0x5a, 0xc1, 0xcf, 0x38, 0x72, 0xec, 0x04, 0xd1, 0xac, 0xe1, 0x8c, 0x5a, 0x51, 0x30, 0xb4,
   0x8b, 0xa4, 0xec, 0x45, 0xbc, 0x43, 0x6d, 0x14, 0xb8, 0x8e, 0x93, 0x80, 0x91, 0x1e, 0x91,
   0xca, 0x14, 0xb7, 0xdf, 0xf2, 0xb3, 0x26]

/-- The fixture as a buffer. -/
def testEkxBuf : Buffer := fun i => TEST_EKX.getD i 0

/-- Checked single-byte read over the list view of a buffer: models the
bounds-checked `u8` read of the accessor contract. -/
def read8? (l : List Nat) (off : Nat) : Option Nat := l[off]?

/-- Checked little-endian 16-bit read over the list view of a buffer. -/
def read16le? (l : List Nat) (off : Nat) : Option Nat :=
  (l[off]?).bind fun b0 => (l[off + 1]?).map fun b1 => b0 + 256 * b1

/-- Checked little-endian 32-bit read over the list view of a buffer. -/
def read32le? (l : List Nat) (off : Nat) : Option Nat :=
  (l[off]?).bind fun b0 => (l[off + 1]?).bind fun b1 =>
    (l[off + 2]?).bind fun b2 => (l[off + 3]?).map fun b3 =>
      b0 + 256 * b1 + 65536 * b2 + 16777216 * b3

/-- `Pk6::new` with its one fallible step made explicit: the
`data[0..4].try_into()` extraction of the seed bytes is a checked read; the
rest is the total decryption pipeline. -/
def Pk6.new? (l : List Nat) : Option Pk6 :=
  (read32le? l 0).map fun seed => ⟨poke_crypto.decrypt (fun i => l.getD i 0) seed⟩

/-- All primitive reads performed by `Pk6::new` and the `Pkx` accessor
implementation of `pk6.rs`, as checked reads over the (canonical or raw)
232-byte buffer: seed bytes 0..4, then every accessor offset, the highest
being the one-byte read at 0xE3. -/
def accessorReadsOk (l : List Nat) : Prop :=
  (Pk6.new? l).isSome ∧
  (read32le? l 0x00).isSome ∧
  (read16le? l 0x08).isSome ∧
  (read16le? l 0x0C).isSome ∧
  (read16le? l 0x0E).isSome ∧
  (read8? l 0x14).isSome ∧
  (read8? l 0x15).isSome ∧
  (read32le? l 0x18).isSome ∧
  (read8? l 0x1C).isSome ∧
  (read8? l 0x1D).isSome ∧
  (read8? l 0x1E).isSome ∧
  (read8? l 0x1F).isSome ∧
  (read8? l 0x20).isSome ∧
  (read8? l 0x21).isSome ∧
  (read8? l 0x22).isSome ∧
  (read8? l 0x23).isSome ∧
  (read16le? l 0x5A).isSome ∧
  (read16le? l 0x5C).isSome ∧
  (read16le? l 0x5E).isSome ∧
  (read16le? l 0x60).isSome ∧
  (read32le? l 0x74).isSome ∧
  (read32le? l 0xA2).isSome ∧
  (read32le? l 0xCA).isSome ∧
  (read8? l 0xE3).isSome

/-! ### Helper lemmas -/

theorem xor_shiftRight_dist (a b n : Nat) : (a ^^^ b) >>> n = a >>> n ^^^ b >>> n := by
  apply Nat.eq_of_testBit_eq
  intro i
  simp [Nat.testBit_shiftRight, Nat.testBit_xor]

theorem xor_mod_pow_dist (a b n : Nat) : (a ^^^ b) % 2 ^ n = a % 2 ^ n ^^^ b % 2 ^ n := by
  apply Nat.eq_of_testBit_eq
  intro i
  simp only [Nat.testBit_mod_two_pow, Nat.testBit_xor]
  by_cases h : i < n <;> simp [h]

theorem xor_div_pow_dist (a b n : Nat) : (a ^^^ b) / 2 ^ n = a / 2 ^ n ^^^ b / 2 ^ n := by
  simpa [Nat.shiftRight_eq_div_pow] using xor_shiftRight_dist a b n

/-- XOR acts independently on the low byte and the rest of a little-endian
split, provided the low parts are in byte range. -/
theorem xor_byte_split (a b c d : Nat) (ha : a < 256) (hc : c < 256) :
    (a + 256 * b) ^^^ (c + 256 * d) = (a ^^^ c) + 256 * (b ^^^ d) := by
  have h256 : (256 : Nat) = 2 ^ 8 := by norm_num
  have hxmod : ((a + 256 * b) ^^^ (c + 256 * d)) % 2 ^ 8
      = a ^^^ c := by
    rw [xor_mod_pow_dist]
    congr 1
    · rw [← h256, Nat.add_mul_mod_self_left, Nat.mod_eq_of_lt ha]
    · rw [← h256, Nat.add_mul_mod_self_left, Nat.mod_eq_of_lt hc]
  have hxdiv : ((a + 256 * b) ^^^ (c + 256 * d)) / 2 ^ 8
      = b ^^^ d := by
    rw [xor_div_pow_dist]
    congr 1
    · rw [← h256, Nat.add_mul_div_left a b (by norm_num : 0 < 256),
        Nat.div_eq_of_lt ha, Nat.zero_add]
    · rw [← h256, Nat.add_mul_div_left c d (by norm_num : 0 < 256),
        Nat.div_eq_of_lt hc, Nat.zero_add]
  calc (a + 256 * b) ^^^ (c + 256 * d)
      = ((a + 256 * b) ^^^ (c + 256 * d)) % 2 ^ 8
        + 2 ^ 8 * (((a + 256 * b) ^^^ (c + 256 * d)) / 2 ^ 8) :=
        (Nat.mod_add_div _ _).symm
    _ = (a ^^^ c) + 256 * (b ^^^ d) := by rw [hxmod, hxdiv, h256]

theorem xor_left_comm' (a b c : Nat) : a ^^^ (b ^^^ c) = b ^^^ (a ^^^ c) := by
  rw [← Nat.xor_assoc, Nat.xor_comm a b, Nat.xor_assoc]

/-- The decryption engine leaves the 8-byte header untouched. -/
theorem decrypt_header_eq (data : Buffer) (seed i : Nat) (h : i < 8) :
    poke_crypto.decrypt data seed i = data i := by
  unfold poke_crypto.decrypt poke_crypto.shuffle poke_crypto.crypt
  rw [if_neg (by omega), if_neg (by omega)]

/-- Every entry of every row of the shuffle table names one of the 4 blocks. -/
theorem shufGet_lt : ∀ idx < 24, ∀ j < 4, poke_crypto.shufGet idx j < 4 := by decide

/-- Each inverse-table row is a left inverse of the corresponding table row. -/
theorem invShuf_shuf : ∀ idx < 24, ∀ j < 4,
    poke_crypto.invShufGet idx (poke_crypto.shufGet idx j) = j := by decide

/-- The XOR-keystream pass is an involution. -/
theorem crypt_crypt (data : Buffer) (seed : Nat) :
    poke_crypto.crypt (poke_crypto.crypt data seed) seed = data := by
  funext i
  unfold poke_crypto.crypt
  by_cases hc : 8 ≤ i ∧ i < 232
  · rw [if_pos hc, if_pos hc, Nat.xor_assoc, Nat.xor_self, Nat.xor_zero]
  · rw [if_neg hc, if_neg hc]

/-- Reordering by a table row undoes reordering by its inverse row. -/
theorem shuffle_unshuffle (data : Buffer) (idx : Nat) (h : idx < 24) :
    poke_crypto.shuffle (poke_crypto.unshuffle data idx) idx = data := by
  funext i
  unfold poke_crypto.shuffle poke_crypto.unshuffle
  by_cases hc : 8 ≤ i ∧ i < 232
  · obtain ⟨h8, h232⟩ := hc
    have hq : (i - 8) / 56 < 4 := by omega
    have hr : (i - 8) % 56 < 56 := by omega
    have hg : poke_crypto.shufGet idx ((i - 8) / 56) < 4 :=
      shufGet_lt idx h _ hq
    rw [if_pos ⟨h8, h232⟩, if_pos (by omega :
      8 ≤ 8 + 56 * poke_crypto.shufGet idx ((i - 8) / 56) + (i - 8) % 56 ∧
      8 + 56 * poke_crypto.shufGet idx ((i - 8) / 56) + (i - 8) % 56 < 232)]
    have e1 : 8 + 56 * poke_crypto.shufGet idx ((i - 8) / 56) + (i - 8) % 56 - 8
        = 56 * poke_crypto.shufGet idx ((i - 8) / 56) + (i - 8) % 56 := by omega
    rw [e1]
    have e2 : (56 * poke_crypto.shufGet idx ((i - 8) / 56) + (i - 8) % 56) / 56
        = poke_crypto.shufGet idx ((i - 8) / 56) := by omega
    have e3 : (56 * poke_crypto.shufGet idx ((i - 8) / 56) + (i - 8) % 56) % 56
        = (i - 8) % 56 := by omega
    rw [e2, e3, invShuf_shuf idx h _ hq]
    congr 1
    omega
  · rw [if_neg hc, if_neg hc]

/-- The block-permutation index is always one of the 24 orderings. -/
theorem shuffleIndex_lt (seed : Nat) : poke_crypto.shuffleIndex seed < 24 := by
  unfold poke_crypto.shuffleIndex
  exact Nat.mod_lt _ (by norm_num)

theorem two_pow_shiftRight_eq_zero (b n : Nat) (h : b < n) : (2 ^ b) >>> n = 0 := by
  rw [Nat.shiftRight_eq_div_pow]
  exact Nat.div_eq_of_lt (Nat.pow_lt_pow_right one_lt_two h)

/-- XORing in a bit below position 4 does not change a value shifted right
by 4. -/
theorem xor_low_bit_shiftRight4 (x b : Nat) (hb : b < 4) :
    (x ^^^ 2 ^ b) >>> 4 = x >>> 4 := by
  rw [xor_shiftRight_dist, two_pow_shiftRight_eq_zero b 4 hb, Nat.xor_zero]

theorem psv_eq_mod (v : Nat) : psv v = ((v >>> 16) ^^^ v % 2 ^ 16) >>> 4 := by
  unfold psv
  rw [show (0xFFFF : Nat) = 2 ^ 16 - 1 by norm_num, Nat.and_pow_two_sub_one_eq_mod]

theorem tsv_xor_low_left (t s b : Nat) (hb : b < 4) : tsv (t ^^^ 2 ^ b) s = tsv t s := by
  unfold tsv
  rw [Nat.xor_comm t (2 ^ b), Nat.xor_assoc, Nat.xor_comm (2 ^ b),
    xor_low_bit_shiftRight4 _ b hb]

theorem tsv_xor_low_right (t s b : Nat) (hb : b < 4) : tsv t (s ^^^ 2 ^ b) = tsv t s := by
  unfold tsv
  rw [← Nat.xor_assoc, xor_low_bit_shiftRight4 _ b hb]

theorem psv_xor_low (v b : Nat) (hb : b < 4) : psv (v ^^^ 2 ^ b) = psv v := by
  rw [psv_eq_mod, psv_eq_mod]
  have h1 : (v ^^^ 2 ^ b) >>> 16 = v >>> 16 := by
    rw [xor_shiftRight_dist, two_pow_shiftRight_eq_zero b 16 (by omega), Nat.xor_zero]
  have h2 : (v ^^^ 2 ^ b) % 2 ^ 16 = v % 2 ^ 16 ^^^ 2 ^ b := by
    rw [xor_mod_pow_dist]
    congr 1
    exact Nat.mod_eq_of_lt (Nat.pow_lt_pow_right one_lt_two (by omega))
  rw [h1, h2, ← Nat.xor_assoc, xor_low_bit_shiftRight4 _ b hb]

theorem psv_xor_high (v b : Nat) (hb : b < 4) : psv (v ^^^ 2 ^ (16 + b)) = psv v := by
  rw [psv_eq_mod, psv_eq_mod]
  have h1 : (v ^^^ 2 ^ (16 + b)) >>> 16 = v >>> 16 ^^^ 2 ^ b := by
    rw [xor_shiftRight_dist]
    congr 1
    rw [Nat.shiftRight_eq_div_pow, pow_add]
    exact Nat.mul_div_cancel_left _ (Nat.pos_pow_of_pos 16 (by norm_num))
  have h2 : (v ^^^ 2 ^ (16 + b)) % 2 ^ 16 = v % 2 ^ 16 := by
    rw [xor_mod_pow_dist, pow_add, Nat.mul_mod_right, Nat.xor_zero]
  rw [h1, h2, Nat.xor_comm (v >>> 16) (2 ^ b), Nat.xor_assoc, Nat.xor_comm (2 ^ b),
    xor_low_bit_shiftRight4 _ b hb]

/-- Reducing the packed word modulo `2^30` does not change any extracted
5-bit field whose bits lie below bit 30. -/
theorem mod_pow_shiftRight_and (w m n k : Nat) (h : m + n ≤ k) :
    ((w % 2 ^ k) >>> m) &&& (2 ^ n - 1) = (w >>> m) &&& (2 ^ n - 1) := by
  apply Nat.eq_of_testBit_eq
  intro i
  simp only [Nat.testBit_and, Nat.testBit_shiftRight, Nat.testBit_mod_two_pow,
    Nat.testBit_two_pow_sub_one]
  by_cases hi : i < n
  · have hik : m + i < k := by omega
    simp [hi, hik]
  · simp [hi]

theorem iv_field_mod (w m : Nat) (h : m + 5 ≤ 30) :
    ((w % 2 ^ 30) >>> m) &&& 31 = (w >>> m) &&& 31 := by
  rw [show (31 : Nat) = 2 ^ 5 - 1 by norm_num]
  exact mod_pow_shiftRight_and w m 5 30 h

theorem read8_isSome (l : List Nat) (off : Nat) (h : off < l.length) :
    (read8? l off).isSome := by
  unfold read8?
  rw [List.getElem?_eq_getElem h]
  rfl

theorem read16_isSome (l : List Nat) (off : Nat) (h : off + 1 < l.length) :
    (read16le? l off).isSome := by
  unfold read16le?
  rw [List.getElem?_eq_getElem (by omega : off < l.length),
    List.getElem?_eq_getElem h]
  rfl

theorem read32_isSome (l : List Nat) (off : Nat) (h : off + 3 < l.length) :
    (read32le? l off).isSome := by
  unfold read32le?
  rw [List.getElem?_eq_getElem (by omega : off < l.length),
    List.getElem?_eq_getElem (by omega : off + 1 < l.length),
    List.getElem?_eq_getElem (by omega : off + 2 < l.length),
    List.getElem?_eq_getElem h]
  rfl

theorem new?_isSome (l : List Nat) (h : 3 < l.length) : (Pk6.new? l).isSome := by
  unfold Pk6.new?
  obtain ⟨v, hv⟩ := Option.isSome_iff_exists.1 (read32_isSome l 0 (by omega))
  rw [hv]
  rfl

/-! ### Claim theorems -/

/-- C1: decrypting the 232-byte fixture record with encryption constant
0x02865c80 via `Pk6::new` yields a decoded entity with species Ditto,
trainer id 63062, secret id 51266, nature Adamant, ability Imposter in the
Hidden slot, all six individual values 31, effort values
(hp,atk,def,spa,spd,spe) = (252,0,6,252,0,0) and hidden-power type Dark. -/
theorem spec_c1_fixture_decodes :
    TEST_EKX.length = 232 ∧
    (Pk6.new testEkxBuf).encryption_constant = 0x02865c80 ∧
    (Pk6.new testEkxBuf).species = Species.Ditto ∧
    (Pk6.new testEkxBuf).tid = 63062 ∧
    (Pk6.new testEkxBuf).sid = 51266 ∧
    (Pk6.new testEkxBuf).nature = Nature.Adamant ∧
    (Pk6.new testEkxBuf).ability = Ability.Imposter ∧
    (Pk6.new testEkxBuf).ability_number = AbilityNumber.Hidden ∧
    (Pk6.new testEkxBuf).ivs = ⟨31, 31, 31, 31, 31, 31⟩ ∧
    (Pk6.new testEkxBuf).evs = ⟨252, 0, 6, 252, 0, 0⟩ ∧
    (Pk6.new testEkxBuf).hidden_power = HiddenPower.Dark := by
  decide

/-- C2: for every seed and every plaintext buffer of the record size,
`decrypt (encrypt P s) s = P` — the XOR keystream pass is self-inverse and
the block permutation composed with its inverse restores the blocks. -/
theorem spec_c2_roundtrip (seed : Nat) (P : Buffer) :
    poke_crypto.decrypt (poke_crypto.encrypt P seed) seed = P := by
  unfold poke_crypto.decrypt poke_crypto.encrypt
  rw [crypt_crypt]
  exact shuffle_unshuffle P _ (shuffleIndex_lt seed)

/-- C3: shiny determination returns true iff `tsv T S = psv V`, and flipping
any bit in the low four bits of either 16-bit half of the inputs (bit `b < 4`
of `T`, of `S`, of `V`, or bit `16 + b` of `V`) never changes the result. -/
theorem spec_c3_shiny (T S V b : Nat) (hb : b < 4) :
    (shiny T S V = true ↔ tsv T S = psv V) ∧
    shiny (T ^^^ 2 ^ b) S V = shiny T S V ∧
    shiny T (S ^^^ 2 ^ b) V = shiny T S V ∧
    shiny T S (V ^^^ 2 ^ b) = shiny T S V ∧
    shiny T S (V ^^^ 2 ^ (16 + b)) = shiny T S V := by
  refine ⟨beq_iff_eq, ?_, ?_, ?_, ?_⟩
  · unfold shiny
    rw [tsv_xor_low_left T S b hb]
  · unfold shiny
    rw [tsv_xor_low_right T S b hb]
  · unfold shiny
    rw [psv_xor_low V b hb]
  · unfold shiny
    rw [psv_xor_high V b hb]

/-- C3 witness at T = 63062, S = 51266, V = 0x31370F23, b = 0. -/
theorem spec_c3_shiny_witness :
    0 < 4 ∧
    ((shiny 63062 51266 0x31370F23 = true ↔ tsv 63062 51266 = psv 0x31370F23) ∧
      shiny (63062 ^^^ 2 ^ 0) 51266 0x31370F23 = shiny 63062 51266 0x31370F23 ∧
      shiny 63062 (51266 ^^^ 2 ^ 0) 0x31370F23 = shiny 63062 51266 0x31370F23 ∧
      shiny 63062 51266 (0x31370F23 ^^^ 2 ^ 0) = shiny 63062 51266 0x31370F23 ∧
      shiny 63062 51266 (0x31370F23 ^^^ 2 ^ (16 + 0)) = shiny 63062 51266 0x31370F23) :=
  ⟨by decide, spec_c3_shiny 63062 51266 0x31370F23 0 (by decide)⟩

/-- C4: the IV unpacking extracts six consecutive 5-bit fields from the
packed word, low bit first, in stat order (hp, atk, def, spa, spd, spe);
the high flag bits (30 and 31) never influence the result, and each
unpacked value is at most 31. -/
theorem spec_c4_iv_unpack (w : Nat) :
    ivs_of w = ⟨w &&& 31, (w >>> 5) &&& 31, (w >>> 10) &&& 31,
      (w >>> 15) &&& 31, (w >>> 20) &&& 31, (w >>> 25) &&& 31⟩ ∧
    ivs_of (w % 2 ^ 30) = ivs_of w ∧
    (ivs_of w).hp ≤ 31 ∧ (ivs_of w).atk ≤ 31 ∧ (ivs_of w).dfn ≤ 31 ∧
    (ivs_of w).spa ≤ 31 ∧ (ivs_of w).spd ≤ 31 ∧ (ivs_of w).spe ≤ 31 := by
  refine ⟨rfl, ?_, Nat.and_le_right, Nat.and_le_right, Nat.and_le_right,
    Nat.and_le_right, Nat.and_le_right, Nat.and_le_right⟩
  unfold ivs_of
  rw [Stats.mk.injEq]
  refine ⟨?_, ?_, ?_, ?_, ?_, ?_⟩
  · have h := iv_field_mod w 0 (by norm_num)
    simpa [Nat.shiftRight_zero] using h
  · exact iv_field_mod w 5 (by norm_num)
  · exact iv_field_mod w 10 (by norm_num)
  · exact iv_field_mod w 15 (by norm_num)
  · exact iv_field_mod w 20 (by norm_num)
  · exact iv_field_mod w 25 (by norm_num)

/-- C5: the hidden-power computation is total over all stat blocks, lands in
the fixed 16-entry type table, and equals the table entry at index
`S * 15 / 63` for the weighted low-bit sum `S`. -/
theorem spec_c5_hidden_power (s : Stats) :
    hidden_power_of s
      = HIDDEN_POWER_TABLE.getD (hiddenPowerSum s * 15 / 63) HiddenPower.Fighting ∧
    hiddenPowerSum s
      = (s.hp &&& 1) + 2 * (s.atk &&& 1) + 4 * (s.dfn &&& 1) +
        8 * (s.spe &&& 1) + 16 * (s.spa &&& 1) + 32 * (s.spd &&& 1) ∧
    hiddenPowerSum s * 15 / 63 < 16 ∧
    HIDDEN_POWER_TABLE.length = 16 ∧
    hidden_power_of s ∈ HIDDEN_POWER_TABLE := by
  have hhp : s.hp &&& 1 ≤ 1 := Nat.and_le_right
  have hatk : s.atk &&& 1 ≤ 1 := Nat.and_le_right
  have hdfn : s.dfn &&& 1 ≤ 1 := Nat.and_le_right
  have hspa : s.spa &&& 1 ≤ 1 := Nat.and_le_right
  have hspd : s.spd &&& 1 ≤ 1 := Nat.and_le_right
  have hspe : s.spe &&& 1 ≤ 1 := Nat.and_le_right
  have hsum : hiddenPowerSum s ≤ 63 := by
    unfold hiddenPowerSum
    omega
  have hidx : hiddenPowerSum s * 15 / 63 < 16 := by
    have h1 : hiddenPowerSum s * 15 ≤ 945 := by omega
    have h2 : hiddenPowerSum s * 15 / 63 ≤ 945 / 63 := Nat.div_le_div_right h1
    omega
  have hmem : ∀ j < 16,
      HIDDEN_POWER_TABLE.getD j HiddenPower.Fighting ∈ HIDDEN_POWER_TABLE := by
    decide
  exact ⟨rfl, rfl, hidx, rfl, hmem _ hidx⟩

/-- C6: the keystream generator advances by the linear congruential recurrence
`state' = state * 0x41C64E6D + 0x6073 (mod 2^32)` and outputs the high 16 bits
of the new state; the XOR pass of decryption advances it once per 16-bit body
word, XORing body word `n` with output word `n`, in buffer order. -/
theorem spec_c6_keystream (data : Buffer) (seed n : Nat) (hn : n < 112)
    (hlo : data (8 + 2 * n) < 256) :
    readU16le (poke_crypto.crypt data seed) (8 + 2 * n)
      = readU16le data (8 + 2 * n) ^^^ poke_crypto.keyWord seed n ∧
    poke_crypto.keyWord seed n = poke_crypto.lcgState seed (n + 1) >>> 16 ∧
    poke_crypto.lcgState seed (n + 1)
      = (poke_crypto.lcgState seed n * 0x41C64E6D + 0x6073) % 2 ^ 32 ∧
    poke_crypto.decrypt data seed
      = poke_crypto.shuffle (poke_crypto.crypt data seed)
          (poke_crypto.shuffleIndex seed) := by
  refine ⟨?_, rfl, rfl, rfl⟩
  have hc1 : poke_crypto.crypt data seed (8 + 2 * n)
      = data (8 + 2 * n) ^^^ poke_crypto.keyWord seed n % 256 := by
    unfold poke_crypto.crypt
    rw [if_pos (by omega : 8 ≤ 8 + 2 * n ∧ 8 + 2 * n < 232)]
    unfold poke_crypto.keyByte
    rw [show 8 + 2 * n - 8 = 2 * n by omega,
      if_pos (by omega : 2 * n % 2 = 0),
      show 2 * n / 2 = n by omega]
  have hc2 : poke_crypto.crypt data seed (8 + 2 * n + 1)
      = data (8 + 2 * n + 1) ^^^ poke_crypto.keyWord seed n / 256 := by
    unfold poke_crypto.crypt
    rw [if_pos (by omega : 8 ≤ 8 + 2 * n + 1 ∧ 8 + 2 * n + 1 < 232)]
    unfold poke_crypto.keyByte
    rw [show 8 + 2 * n + 1 - 8 = 2 * n + 1 by omega,
      if_neg (by omega : ¬(2 * n + 1) % 2 = 0),
      show (2 * n + 1) / 2 = n by omega]
  unfold readU16le
  rw [hc1, hc2,
    ← xor_byte_split (data (8 + 2 * n)) (data (8 + 2 * n + 1))
      (poke_crypto.keyWord seed n % 256) (poke_crypto.keyWord seed n / 256)
      hlo (Nat.mod_lt _ (by norm_num)),
    Nat.mod_add_div]

/-- C6 witness on the fixture buffer at word 0. -/
theorem spec_c6_keystream_witness :
    0 < 112 ∧ testEkxBuf (8 + 2 * 0) < 256 ∧
    (readU16le (poke_crypto.crypt testEkxBuf 0x02865c80) (8 + 2 * 0)
        = readU16le testEkxBuf (8 + 2 * 0) ^^^ poke_crypto.keyWord 0x02865c80 0 ∧
      poke_crypto.keyWord 0x02865c80 0 = poke_crypto.lcgState 0x02865c80 (0 + 1) >>> 16 ∧
      poke_crypto.lcgState 0x02865c80 (0 + 1)
        = (poke_crypto.lcgState 0x02865c80 0 * 0x41C64E6D + 0x6073) % 2 ^ 32 ∧
      poke_crypto.decrypt testEkxBuf 0x02865c80
        = poke_crypto.shuffle (poke_crypto.crypt testEkxBuf 0x02865c80)
            (poke_crypto.shuffleIndex 0x02865c80)) :=
  ⟨by decide, by decide, spec_c6_keystream testEkxBuf 0x02865c80 0 (by decide) (by decide)⟩

/-- C7: decryption derives its block-permutation index by shifting the seed
right by 13, masking to 5 bits and reducing modulo the 24 permutations of the
four 56-byte blocks, then reorders every body byte through the fixed
permutation-table row at that index. -/
theorem spec_c7_permutation (data : Buffer) (seed i : Nat)
    (h8 : 8 ≤ i) (h232 : i < 232) :
    poke_crypto.shuffleIndex seed = ((seed >>> 13) &&& 31) % 24 ∧
    poke_crypto.shuffleIndex seed < 24 ∧
    poke_crypto.SHUFFLE_TABLE.length = 24 ∧
    poke_crypto.decrypt data seed i
      = poke_crypto.crypt data seed
          (8 + 56 * poke_crypto.shufGet (poke_crypto.shuffleIndex seed) ((i - 8) / 56)
            + (i - 8) % 56) := by
  refine ⟨rfl, shuffleIndex_lt seed, rfl, ?_⟩
  unfold poke_crypto.decrypt poke_crypto.shuffle
  rw [if_pos ⟨h8, h232⟩]

/-- C7 witness on the fixture buffer at the first body byte. -/
theorem spec_c7_permutation_witness :
    8 ≤ 8 ∧ 8 < 232 ∧
    (poke_crypto.shuffleIndex 0x02865c80 = ((0x02865c80 >>> 13) &&& 31) % 24 ∧
      poke_crypto.shuffleIndex 0x02865c80 < 24 ∧
      poke_crypto.SHUFFLE_TABLE.length = 24 ∧
      poke_crypto.decrypt testEkxBuf 0x02865c80 8
        = poke_crypto.crypt testEkxBuf 0x02865c80
            (8 + 56 * poke_crypto.shufGet (poke_crypto.shuffleIndex 0x02865c80) ((8 - 8) / 56)
              + (8 - 8) % 56)) :=
  ⟨by decide, by decide, spec_c7_permutation testEkxBuf 0x02865c80 8 (by decide) (by decide)⟩

/-- C8: the decryption seed is the little-endian u32 at bytes 0..4 of the raw
record, and the decoded entity's `encryption_constant` accessor returns
exactly that value. -/
theorem spec_c8_seed (data : Buffer) :
    Pk6.new data
      = ⟨poke_crypto.decrypt data
          (data 0 + 256 * data 1 + 65536 * data 2 + 16777216 * data 3)⟩ ∧
    (Pk6.new data).encryption_constant
      = data 0 + 256 * data 1 + 65536 * data 2 + 16777216 * data 3 := by
  constructor
  · rfl
  · show readU32le (poke_crypto.decrypt data (readU32le data 0)) 0 = _
    unfold readU32le
    rw [decrypt_header_eq data _ 0 (by norm_num),
      decrypt_header_eq data _ (0 + 1) (by norm_num),
      decrypt_header_eq data _ (0 + 2) (by norm_num),
      decrypt_header_eq data _ (0 + 3) (by norm_num)]

/-- C9: decryption copies the fixed unencrypted header prefix (bytes 0..8,
holding the seed and checksum) unchanged; only the body is transformed. -/
theorem spec_c9_header (data : Buffer) (seed i : Nat) (h : i < 8) :
    poke_crypto.decrypt data seed i = data i :=
  decrypt_header_eq data seed i h

/-- C9 witness on the fixture buffer at header byte 5. -/
theorem spec_c9_header_witness :
    5 < 8 ∧ poke_crypto.decrypt testEkxBuf 0x02865c80 5 = testEkxBuf 5 :=
  ⟨by decide, spec_c9_header testEkxBuf 0x02865c80 5 (by decide)⟩

/-- C10: every public `Pk6` operation is total over 232-byte inputs — the
seed-byte extraction in `Pk6::new` always succeeds, and every primitive
accessor read (the highest being one byte at 0xE3 = 227) lies entirely inside
the 232-byte buffer. -/
theorem spec_c10_totality (l : List Nat) (h : l.length = 232) :
    accessorReadsOk l := by
  refine ⟨new?_isSome l (by omega), read32_isSome l _ (by omega),
    read16_isSome l _ (by omega), read16_isSome l _ (by omega),
    read16_isSome l _ (by omega), read8_isSome l _ (by omega),
    read8_isSome l _ (by omega), read32_isSome l _ (by omega),
    read8_isSome l _ (by omega), read8_isSome l _ (by omega),
    read8_isSome l _ (by omega), read8_isSome l _ (by omega),
    read8_isSome l _ (by omega), read8_isSome l _ (by omega),
    read8_isSome l _ (by omega), read8_isSome l _ (by omega),
    read16_isSome l _ (by omega), read16_isSome l _ (by omega),
    read16_isSome l _ (by omega), read16_isSome l _ (by omega),
    read32_isSome l _ (by omega), read32_isSome l _ (by omega),
    read32_isSome l _ (by omega), read8_isSome l _ (by omega)⟩

/-- C10 witness on the all-zero 232-byte buffer. -/
theorem spec_c10_totality_witness :
    (List.replicate 232 0).length = 232 ∧ accessorReadsOk (List.replicate 232 0) :=
  ⟨by simp, spec_c10_totality (List.replicate 232 0) (by simp)⟩
